import Mathlib

/- Verification development for the license-plate recognition service
   (apps/api/app/services).  The Python code is shallowly embedded:
   floats become exact rationals, strings become Lean strings with
   character-wise ASCII semantics, dictionaries become functions, and the
   external collaborators (YOLO detector, EasyOCR reader, OpenCV
   preprocessing) become oracle inputs carried in an environment record.
   Character classes are written through code points: 48-57 is "0"-"9",
   65-90 is "A"-"Z", 97-122 is "a"-"z". -/

namespace Plate

/-- Python "str.isdigit" on the ASCII range, as the code applies it to plate
    text. -/
def pyIsDigit (c : Char) : Bool :=
  decide (48 ≤ c.toNat ∧ c.toNat ≤ 57)

/-- Python "str.isalpha" on the ASCII range. -/
def pyIsAlpha (c : Char) : Bool :=
  decide ((65 ≤ c.toNat ∧ c.toNat ≤ 90) ∨ (97 ≤ c.toNat ∧ c.toNat ≤ 122))

/-- Membership in the regex class [A-Za-z0-9]: the characters kept by the
    validator's normalizer. -/
def isAsciiAlnum (c : Char) : Bool := pyIsAlpha c || pyIsDigit c

/-- Membership in the regex class [A-Z]. -/
def isUpperAZ (c : Char) : Bool :=
  decide (65 ≤ c.toNat ∧ c.toNat ≤ 90)

/-- Membership in the regex class [\s\-] stripped by the registry normalizer:
    ASCII whitespace (space, tab, newline, vertical tab, form feed, carriage
    return) or hyphen. -/
def isSpaceOrHyphen (c : Char) : Bool :=
  decide (c.toNat = 32 ∨ c.toNat = 9 ∨ c.toNat = 10 ∨ c.toNat = 11 ∨
          c.toNat = 12 ∨ c.toNat = 13 ∨ c.toNat = 45)

/-- Information about one correction, mirroring CorrectionInfo in
    rules/base.py. -/
structure CorrectionInfo where
  position : ℕ
  original : Char
  corrected : Char
  reason : String
  deriving DecidableEq

/-- The PlateRule interface of rules/base.py.  The anchored regex pattern is
    embedded as the full-string predicate it decides. -/
structure PlateRule where
  name : String
  region : String
  patternAccepts : String → Bool
  examplePlate : String
  positionType : ℕ → Option String
  getCorrection : Char → ℕ → Option Char

/-- PlateRule.get_plate_length: length of the example plate. -/
def PlateRule.getPlateLength (r : PlateRule) : ℕ := r.examplePlate.length

namespace BrazilMercosulRule

/-- Position types of the Mercosul format: 0-2 letters, 3 digit, 4 letter,
    5-6 digits. -/
def positionTypes : ℕ → Option String
  | 0 => some "letter"
  | 1 => some "letter"
  | 2 => some "letter"
  | 3 => some "digit"
  | 4 => some "letter"
  | 5 => some "digit"
  | 6 => some "digit"
  | _ => none

/-- Correction table consulted when a letter appears in a digit slot. -/
def letterToDigit : Char → Option Char
  | 'O' => some '0'
  | 'Q' => some '0'
  | 'D' => some '0'
  | 'I' => some '1'
  | 'L' => some '1'
  | 'Z' => some '2'
  | 'S' => some '5'
  | 'G' => some '6'
  | 'B' => some '8'
  | _ => none

/-- Correction table consulted when a digit appears in a letter slot. -/
def digitToLetter : Char → Option Char
  | '0' => some 'O'
  | '1' => some 'I'
  | '2' => some 'Z'
  | '5' => some 'S'
  | '6' => some 'G'
  | '8' => some 'B'
  | _ => none

/-- The anchored regex of the Mercosul rule, three letters, one digit, one
    letter, two digits, as a full-string checker. -/
def patternAccepts (s : String) : Bool :=
  match s.data with
  | [c0, c1, c2, c3, c4, c5, c6] =>
    isUpperAZ c0 && isUpperAZ c1 && isUpperAZ c2 && pyIsDigit c3 &&
    isUpperAZ c4 && pyIsDigit c5 && pyIsDigit c6
  | _ => false

/-- BrazilMercosulRule.get_correction. -/
def getCorrection (c : Char) (position : ℕ) : Option Char :=
  match positionTypes position with
  | none => none
  | some expectedType =>
    let charUpper := Char.toUpper c
    if expectedType = "letter" then
      if pyIsDigit charUpper then digitToLetter charUpper else none
    else if expectedType = "digit" then
      if pyIsAlpha charUpper then letterToDigit charUpper else none
    else none

/-- The bundled Mercosul rule. -/
def rule : PlateRule :=
  { name := "BR_MERCOSUL", region := "BR", patternAccepts := patternAccepts,
    examplePlate := "ABC1D23", positionType := positionTypes,
    getCorrection := getCorrection }

end BrazilMercosulRule

namespace BrazilOldRule

/-- Position types of the old format: 0-2 letters, 3-6 digits. -/
def positionTypes : ℕ → Option String
  | 0 => some "letter"
  | 1 => some "letter"
  | 2 => some "letter"
  | 3 => some "digit"
  | 4 => some "digit"
  | 5 => some "digit"
  | 6 => some "digit"
  | _ => none

/-- Correction table consulted when a letter appears in a digit slot (the old
    rule declares the same table as the Mercosul rule). -/
def letterToDigit : Char → Option Char
  | 'O' => some '0'
  | 'Q' => some '0'
  | 'D' => some '0'
  | 'I' => some '1'
  | 'L' => some '1'
  | 'Z' => some '2'
  | 'S' => some '5'
  | 'G' => some '6'
  | 'B' => some '8'
  | _ => none

/-- Correction table consulted when a digit appears in a letter slot. -/
def digitToLetter : Char → Option Char
  | '0' => some 'O'
  | '1' => some 'I'
  | '2' => some 'Z'
  | '5' => some 'S'
  | '6' => some 'G'
  | '8' => some 'B'
  | _ => none

/-- The anchored regex of the old rule, three letters then four digits, as a
    full-string checker. -/
def patternAccepts (s : String) : Bool :=
  match s.data with
  | [c0, c1, c2, c3, c4, c5, c6] =>
    isUpperAZ c0 && isUpperAZ c1 && isUpperAZ c2 && pyIsDigit c3 &&
    pyIsDigit c4 && pyIsDigit c5 && pyIsDigit c6
  | _ => false

/-- BrazilOldRule.get_correction. -/
def getCorrection (c : Char) (position : ℕ) : Option Char :=
  match positionTypes position with
  | none => none
  | some expectedType =>
    let charUpper := Char.toUpper c
    if expectedType = "letter" then
      if pyIsDigit charUpper then digitToLetter charUpper else none
    else if expectedType = "digit" then
      if pyIsAlpha charUpper then letterToDigit charUpper else none
    else none

/-- The bundled old-format rule. -/
def rule : PlateRule :=
  { name := "BR_OLD", region := "BR", patternAccepts := patternAccepts,
    examplePlate := "ABC1234", positionType := positionTypes,
    getCorrection := getCorrection }

end BrazilOldRule

/-- PlateFormat of formats.py: a rule bundled with its metadata. -/
structure PlateFormat where
  name : String
  region : String
  patternAccepts : String → Bool
  examplePlate : String
  rule : PlateRule

/-- PlateFormatRegistry.register_rule builds the format wrapper from a rule. -/
def PlateFormat.ofRule (r : PlateRule) : PlateFormat :=
  { name := r.name, region := r.region, patternAccepts := r.patternAccepts,
    examplePlate := r.examplePlate, rule := r }

namespace PlateFormatRegistry

/-- The registry after _register_defaults: formats keyed by region BR, in
    registration order Mercosul then old. -/
def brFormats : List PlateFormat :=
  [PlateFormat.ofRule BrazilMercosulRule.rule, PlateFormat.ofRule BrazilOldRule.rule]

/-- PlateFormatRegistry._normalize: upper-case, then strip the regex class
    of whitespace and hyphens. -/
def normalize (s : String) : String :=
  String.mk ((s.data.map Char.toUpper).filter (fun c => !(isSpaceOrHyphen c)))

/-- The position-class count of _calculate_match_score: how many of the first
    totalPositions characters agree with the expected class of their slot. -/
def correctPositions (text : String) (fmt : PlateFormat) (totalPositions : ℕ) : ℕ :=
  List.countP (fun i =>
    match fmt.rule.positionType i with
    | none => false
    | some expectedType =>
      let c := text.data.getD i ' '
      if expectedType = "letter" then pyIsAlpha c
      else if expectedType = "digit" then pyIsDigit c
      else false) (List.range totalPositions)

/-- PlateFormatRegistry._calculate_match_score. -/
def calculateMatchScore (text : String) (fmt : PlateFormat) : ℚ :=
  let expectedLen := fmt.rule.getPlateLength
  let lenDiff : ℕ := max (text.length - expectedLen) (expectedLen - text.length)
  if 2 < lenDiff then 0
  else
    let lengthScore : ℚ := 1 - (lenDiff : ℚ) * 0.2
    if text.length = 0 then 0
    else
      let totalPositions := min text.length expectedLen
      let positionScore : ℚ :=
        if 0 < totalPositions then
          (correctPositions text fmt totalPositions : ℚ) / (totalPositions : ℚ)
        else 0
      lengthScore * 0.3 + positionScore * 0.7

/-- The shared tail of match and match_with_region: first format whose
    pattern accepts the text scores 1.0, otherwise the best soft score under
    a strictly-improving fold started at (none, 0). -/
def matchAgainst (formats : List PlateFormat) (normalized : String) :
    Option PlateFormat × ℚ :=
  match formats.find? (fun fmt => fmt.patternAccepts normalized) with
  | some fmt => (some fmt, 1)
  | none =>
    formats.foldl (fun best fmt =>
      let score := calculateMatchScore normalized fmt
      if best.2 < score then (some fmt, score) else best) (none, 0)

/-- PlateFormatRegistry.match over the default registry contents. -/
def matchText (text : String) : Option PlateFormat × ℚ :=
  matchAgainst brFormats (normalize text)

/-- PlateFormatRegistry.match_with_region: restrict to the formats of one
    region (the default registry only has BR). -/
def matchWithRegion (text : String) (region : String) : Option PlateFormat × ℚ :=
  matchAgainst (if region = "BR" then brFormats else []) (normalize text)

end PlateFormatRegistry

/-- ValidationResult of validator.py. -/
structure ValidationResult where
  text : String
  originalText : String
  confidence : ℚ
  region : Option String
  formatName : Option String
  correctionsMade : List CorrectionInfo := []
  isValid : Bool := false
  deriving DecidableEq

/-- ValidationConfig of validator.py with its defaults. -/
structure ValidationConfig where
  minLength : ℕ := 6
  maxLength : ℕ := 8
  defaultRegion : String := "BR"
  correctionConfidencePenalty : ℚ := 0.05

/-- The default validation configuration. -/
def ValidationConfig.default : ValidationConfig := {}

namespace PlateValidator

/-- PlateValidator.BLACKLIST. -/
def BLACKLIST : List String := ["BRASIL", "BRAZIL", "MERCOSUL", "MERCOSUR", "BR"]

/-- PlateValidator._normalize: strip non-alphanumerics, then upper-case. -/
def normalize (s : String) : String :=
  String.mk ((s.data.filter isAsciiAlnum).map Char.toUpper)

/-- PlateValidator._is_blacklisted. -/
def isBlacklisted (text : String) : Bool := BLACKLIST.contains text

/-- PlateValidator._is_valid_length. -/
def isValidLength (cfg : ValidationConfig) (text : String) : Bool :=
  decide (cfg.minLength ≤ text.length) && decide (text.length ≤ cfg.maxLength)

/-- PlateValidator._looks_like_plate: has both letters and digits. -/
def looksLikePlate (text : String) : Bool :=
  text.data.any pyIsAlpha && text.data.any pyIsDigit

/-- The character walk of PlateValidator._apply_corrections, indexed from i. -/
def applyCorrectionsFrom (rule : PlateRule) : List Char → ℕ → List Char × List CorrectionInfo
  | [], _ => ([], [])
  | c :: rest, i =>
    let tail := applyCorrectionsFrom rule rest (i + 1)
    match rule.positionType i with
    | none => (c :: tail.1, tail.2)
    | some expectedType =>
      match rule.getCorrection c i with
      | some corrected =>
        (corrected :: tail.1, ⟨i, c, corrected, "expected_" ++ expectedType⟩ :: tail.2)
      | none => (c :: tail.1, tail.2)

/-- PlateValidator._apply_corrections. -/
def applyCorrections (text : String) (rule : PlateRule) : String × List CorrectionInfo :=
  let walked := applyCorrectionsFrom rule text.data 0
  (String.mk walked.1, walked.2)

/-- PlateValidator.validate. -/
def validate (cfg : ValidationConfig) (text : String) (ocrConfidence : ℚ)
    (region : Option String) : ValidationResult :=
  let original := text
  let normalized := normalize text
  if isBlacklisted normalized then
    { text := normalized, originalText := original, confidence := 0,
      region := none, formatName := none, correctionsMade := [], isValid := false }
  else if !(isValidLength cfg normalized) then
    { text := normalized, originalText := original, confidence := ocrConfidence * 0.3,
      region := none, formatName := none, correctionsMade := [], isValid := false }
  else
    let matched :=
      match region with
      | some r => PlateFormatRegistry.matchWithRegion normalized r
      | none => PlateFormatRegistry.matchText normalized
    let fallback : ValidationResult :=
      if looksLikePlate normalized then
        { text := normalized, originalText := original,
          confidence := ocrConfidence * 0.5, region := region, formatName := none,
          correctionsMade := [], isValid := false }
      else
        { text := normalized, originalText := original, confidence := 0,
          region := none, formatName := none, correctionsMade := [], isValid := false }
    match matched with
    | (some formatMatch, matchScore) =>
      if matchScore = 1 then
        { text := normalized, originalText := original, confidence := ocrConfidence,
          region := some formatMatch.region, formatName := some formatMatch.name,
          correctionsMade := [], isValid := true }
      else
        let correctedPair := applyCorrections normalized formatMatch.rule
        if formatMatch.patternAccepts correctedPair.1 then
          let correctionPenalty : ℚ :=
            (correctedPair.2.length : ℚ) * cfg.correctionConfidencePenalty
          { text := correctedPair.1, originalText := original,
            confidence := max 0 (ocrConfidence * matchScore - correctionPenalty),
            region := some formatMatch.region, formatName := some formatMatch.name,
            correctionsMade := correctedPair.2, isValid := true }
        else fallback
    | (none, _) => fallback

/-- The descending sort order of validate_batch: r precedes s when the key
    pair (is_valid, confidence) of r is lexicographically at least that
    of s.  Python sorts with reverse=True on that key, which is the stable
    descending order. -/
def keyGE (r s : ValidationResult) : Bool :=
  (!s.isValid && r.isValid) ||
  (r.isValid = s.isValid && decide (s.confidence ≤ r.confidence))

/-- PlateValidator.validate_batch. -/
def validateBatch (cfg : ValidationConfig) (candidates : List (String × ℚ))
    (region : Option String) : Option ValidationResult :=
  let results := (candidates.map (fun c => validate cfg c.1 c.2 region)).filter
    (fun r => r.isValid || decide (0 < r.confidence))
  if results.isEmpty then none
  else (results.mergeSort keyGE).head?

end PlateValidator

/-- CharacterResult of ocr/engine.py. -/
structure CharacterResult where
  char : Char
  confidence : ℚ
  position : ℕ
  deriving DecidableEq

/-- One raw word-level OCR segment, the (text, confidence) part of an EasyOCR
    (bbox, text, confidence) triple.  The geometric bbox only feeds the
    bounding_boxes display list, which no code modelled here reads, and is
    omitted. -/
abbrev RawSegment := String × ℚ

/-- OCRResult of ocr/engine.py (bounding_boxes omitted, see RawSegment). -/
structure OCRResult where
  text : String
  confidence : ℚ
  characters : List CharacterResult := []
  rawResults : List RawSegment := []
  deriving DecidableEq

namespace EasyOCREngine

/-- Python string join with the empty separator. -/
def joinTexts : List String → String
  | [] => ""
  | t :: ts => t ++ joinTexts ts

/-- Character results for one accepted segment, one per character, each with
    the word confidence, positions counted from pos. -/
def charResults (conf : ℚ) : List Char → ℕ → List CharacterResult
  | [], _ => []
  | c :: rest, pos => ⟨c, conf, pos⟩ :: charResults conf rest (pos + 1)

/-- The aggregation loop of EasyOCREngine.extract_text: accepted texts,
    character results, confidence sum and accepted count, with
    current_position threaded through. -/
def extractLoop (minConfidence : ℚ) : List RawSegment → ℕ →
    List String × List CharacterResult × ℚ × ℕ
  | [], _ => ([], [], 0, 0)
  | (text, conf) :: rest, currentPosition =>
    if conf < minConfidence then extractLoop minConfidence rest currentPosition
    else
      let tail := extractLoop minConfidence rest (currentPosition + text.length)
      (text :: tail.1, charResults conf text.data currentPosition ++ tail.2.1,
       conf + tail.2.2.1, tail.2.2.2 + 1)

/-- EasyOCREngine.extract_text, given the raw segments the reader returned
    (the reader is an external collaborator; a reader exception yields the
    empty segment list, which the code also maps to the empty result). -/
def extractText (minConfidence : ℚ) (results : List RawSegment) : OCRResult :=
  match results with
  | [] => { text := "", confidence := 0, characters := [], rawResults := [] }
  | _ =>
    let agg := extractLoop minConfidence results 0
    { text := joinTexts agg.1,
      confidence := if 0 < agg.2.2.2 then agg.2.2.1 / (agg.2.2.2 : ℚ) else 0,
      characters := agg.2.1,
      rawResults := results }

/-- OCREngine.get_candidates: raw segments at or above the threshold, sorted
    by confidence descending (stable, like Python reverse=True). -/
def getCandidates (result : OCRResult) (minConfidence : ℚ) : List (String × ℚ) :=
  (result.rawResults.filter (fun r => decide (minConfidence ≤ r.2))).mergeSort
    (fun a b => decide (b.2 ≤ a.2))

end EasyOCREngine

/-- BoundingBox of detection/detector.py, integer pixel coordinates. -/
structure BoundingBox where
  x : ℤ
  y : ℤ
  width : ℤ
  height : ℤ
  deriving DecidableEq

namespace BoundingBox

/-- BoundingBox.add_padding for an image of extents (h, w). -/
def addPadding (b : BoundingBox) (padding : ℤ) (h w : ℤ) : BoundingBox :=
  { x := max 0 (b.x - padding),
    y := max 0 (b.y - padding),
    width := min (w - max 0 (b.x - padding)) (b.width + 2 * padding),
    height := min (h - max 0 (b.y - padding)) (b.height + 2 * padding) }

/-- BoundingBox.to_xyxy. -/
def toXYXY (b : BoundingBox) : ℤ × ℤ × ℤ × ℤ :=
  (b.x, b.y, b.x + b.width, b.y + b.height)

end BoundingBox

/-- PlateDetector.crop_plate reduced to the index ranges of the numpy slice
    image[y1:y2, x1:x2].copy(): the returned tuple (y1, y2, x1, x2) says the
    copied subregion spans rows [y1, y2) and columns [x1, x2). -/
def cropPlateBounds (h w : ℤ) (b : BoundingBox) (padding : ℤ) : ℤ × ℤ × ℤ × ℤ :=
  let padded := b.addPadding padding h w
  (padded.toXYXY.2.1, padded.toXYXY.2.2.2, padded.toXYXY.1, padded.toXYXY.2.2.1)

/-- RecognitionConfig of recognition.py, keeping the fields the orchestrator
    logic reads (model paths, language list and GPU switch only parameterize
    the external engines). -/
structure RecognitionConfig where
  usePlateDetection : Bool := true
  detectionConfidence : ℚ := 0.5
  detectionPadding : ℤ := 10
  minOcrConfidence : ℚ := 0.3
  defaultRegion : String := "BR"
  needsReviewThreshold : ℚ := 0.6
  autoAcceptThreshold : ℚ := 0.85
  enableEnhancedRetry : Bool := true
  maxProcessingAttempts : ℕ := 3

/-- The default recognition configuration. -/
def RecognitionConfig.default : RecognitionConfig := {}

/-- Labels appended to processing_metadata stages_applied. -/
inductive Stage
  | preCroppedPlate
  | detection
  | fallbackFullImage
  | preprocessing (configIndex : ℕ)
  deriving DecidableEq

/-- The processing_metadata dict (the quality snapshot is produced by the
    external assessor and never read back; it is omitted).  The dict is
    mutated in place, modelled by threading this record. -/
structure Metadata where
  attempts : ℕ
  stagesApplied : List Stage
  deriving DecidableEq

/-- RecognitionResult of recognition.py. -/
structure RecognitionResult where
  plateNumber : Option String
  confidenceScore : ℚ
  detectionConfidence : ℚ
  ocrConfidence : ℚ
  boundingBox : Option BoundingBox
  plateRegion : Option String
  needsReview : Bool
  processingMetadata : Metadata
  deriving DecidableEq

/-- Oracle for the external collaborators of one process_image_array call:
    the image extents, the detector's best hit, and the raw segments the OCR
    reader returns on the initial pass and on each retry configuration.
    retrySegments i = none models an exception raised while preprocessing
    with configuration i or running OCR on its output. -/
structure Env where
  imageH : ℕ
  imageW : ℕ
  detection : Option (BoundingBox × ℚ)
  initialSegments : List RawSegment
  retrySegments : ℕ → Option (List RawSegment)

namespace RecognitionService

/-- RecognitionService._is_plate_crop. -/
def isPlateCrop (h w : ℕ) : Bool :=
  if h = 0 then false
  else
    let aspectRatio : ℚ := (w : ℚ) / (h : ℚ)
    (decide (w < 800) && decide (h < 300)) &&
    (decide ((1.5 : ℚ) ≤ aspectRatio) && decide (aspectRatio ≤ (7.0 : ℚ)))

/-- RecognitionService._calculate_confidence. -/
def calculateConfidence (detectionConf ocrConf validationConf : ℚ) : ℚ :=
  detectionConf * 0.3 + ocrConf * 0.4 + validationConf * 0.3

/-- RecognitionService._should_flag_for_review. -/
def shouldFlagForReview (cfg : RecognitionConfig)
    (detectionConf ocrConf validationConf : ℚ) : Bool :=
  decide (calculateConfidence detectionConf ocrConf validationConf <
    cfg.needsReviewThreshold)

/-- One finditer pass of a fixed-length-7 character-class pattern: scan left
    to right, emit each match and resume after its end. -/
def scanPattern (accepts : String → Bool) : List Char → List String
  | [] => []
  | c :: rest =>
    let window := (c :: rest).take 7
    if window.length = 7 && accepts (String.mk window) then
      String.mk window :: scanPattern accepts ((c :: rest).drop 7)
    else scanPattern accepts rest
termination_by l => l.length
decreasing_by
  all_goals simp [List.length_drop]
  omega

/-- RecognitionService._extract_plate_substrings. -/
def extractPlateSubstrings (text : String) (confidence : ℚ) : List (String × ℚ) :=
  let cleaned := (text.data.filter isAsciiAlnum).map Char.toUpper
  let patterns := [BrazilMercosulRule.patternAccepts, BrazilOldRule.patternAccepts]
  patterns.foldl (fun extracted pat =>
    (scanPattern pat cleaned).foldl (fun extracted plate =>
      if extracted.any (fun e => e.1 = plate) then extracted
      else extracted ++ [(plate, confidence * 0.95)]) extracted) []

/-- The membership test any(c[0] == t for c in candidates). -/
def hasText (candidates : List (String × ℚ)) (t : String) : Bool :=
  candidates.any (fun c => c.1 = t)

/-- The adjacent-segment concatenation loop of _validate_ocr_result: for each
    window raw[i:j] with j in [i+2, min(i+4, len+1)) whose segments all pass
    the threshold, add the concatenation with the window's mean confidence. -/
def addAdjacentConcats (minConfidence : ℚ) (raw : List RawSegment)
    (candidates : List (String × ℚ)) : List (String × ℚ) :=
  (List.range raw.length).foldl (fun cands i =>
    (List.range' (i + 2) (min (i + 4) (raw.length + 1) - (i + 2))).foldl (fun cands j =>
      let slice := (raw.drop i).take (j - i)
      let segmentTexts := (slice.filter (fun r => decide (minConfidence ≤ r.2))).map (·.1)
      if segmentTexts.length = j - i then
        let concatText := EasyOCREngine.joinTexts segmentTexts
        let avgConf := (slice.map (·.2)).sum / ((j - i : ℕ) : ℚ)
        if hasText cands concatText then cands
        else cands ++ [(concatText, avgConf)]
      else cands) cands) candidates

/-- RecognitionService._validate_ocr_result. -/
def validateOcrResult (cfg : RecognitionConfig) (ocrResult : OCRResult) :
    ValidationResult :=
  let candidates := EasyOCREngine.getCandidates ocrResult cfg.minOcrConfidence
  let candidates :=
    if ocrResult.text ≠ "" ∧ cfg.minOcrConfidence ≤ ocrResult.confidence ∧
        hasText candidates ocrResult.text = false then
      candidates ++ [(ocrResult.text, ocrResult.confidence)]
    else candidates
  let candidates := addAdjacentConcats cfg.minOcrConfidence ocrResult.rawResults candidates
  let candidates := candidates.foldl (fun cands c =>
    (extractPlateSubstrings c.1 c.2).foldl (fun cands e =>
      if hasText cands e.1 then cands else cands ++ [e]) cands) candidates
  match candidates with
  | [] =>
    { text := "", originalText := "", confidence := 0, region := none,
      formatName := none, correctionsMade := [], isValid := false }
  | first :: _ =>
    match PlateValidator.validateBatch .default candidates (some cfg.defaultRegion) with
    | some result => result
    | none =>
      { text := first.1, originalText := first.1, confidence := first.2 * 0.3,
        region := none, formatName := none, correctionsMade := [], isValid := false }

/-- The RecognitionResult built inside the retry loop; metadata.copy() copies
    the attempts counter by value, so the emitted result snapshots it. -/
def mkRetryResult (cfg : RecognitionConfig) (detectionConfidence : ℚ)
    (ocrResult : OCRResult) (validation : ValidationResult) (overall : ℚ)
    (meta : Metadata) : RecognitionResult :=
  { plateNumber :=
      if validation.isValid || decide ((0.3 : ℚ) < validation.confidence) then
        some validation.text
      else none,
    confidenceScore := overall,
    detectionConfidence := detectionConfidence,
    ocrConfidence := ocrResult.confidence,
    boundingBox := none,
    plateRegion := validation.region,
    needsReview := shouldFlagForReview cfg detectionConfidence ocrResult.confidence
      validation.confidence,
    processingMetadata := meta }

/-- The number of preprocessing configurations tried by
    _retry_with_preprocessing. -/
def preprocessingConfigCount : ℕ := 4

/-- The configuration loop of _retry_with_preprocessing.  Loop head: break
    once the attempt budget is reached.  A raising attempt (retrySegments i
    = none) is logged and skipped: no increment, next configuration.  A
    completed attempt increments attempts, keeps the best overall score and
    breaks early at the auto-accept threshold, recording the stage. -/
def retryLoop (cfg : RecognitionConfig) (env : Env) (detectionConfidence : ℚ) :
    List ℕ → Option RecognitionResult → ℚ → Metadata →
    Option RecognitionResult × Metadata
  | [], best, _, meta => (best, meta)
  | i :: rest, best, bestConfidence, meta =>
    if cfg.maxProcessingAttempts ≤ meta.attempts then (best, meta)
    else
      match env.retrySegments i with
      | none => retryLoop cfg env detectionConfidence rest best bestConfidence meta
      | some segments =>
        let ocrResult := EasyOCREngine.extractText cfg.minOcrConfidence segments
        let meta1 : Metadata := { meta with attempts := meta.attempts + 1 }
        let validation := validateOcrResult cfg ocrResult
        let overall := calculateConfidence detectionConfidence ocrResult.confidence
          validation.confidence
        let step : Option RecognitionResult × ℚ :=
          if bestConfidence < overall then
            (some (mkRetryResult cfg detectionConfidence ocrResult validation overall meta1),
             overall)
          else (best, bestConfidence)
        if cfg.autoAcceptThreshold ≤ step.2 then
          (step.1, { meta1 with stagesApplied := meta1.stagesApplied ++ [Stage.preprocessing i] })
        else retryLoop cfg env detectionConfidence rest step.1 step.2 meta1

/-- RecognitionService._retry_with_preprocessing. -/
def retryWithPreprocessing (cfg : RecognitionConfig) (env : Env)
    (detectionConfidence : ℚ) (meta : Metadata) :
    Option RecognitionResult × Metadata :=
  retryLoop cfg env detectionConfidence (List.range preprocessingConfigCount) none 0 meta

/-- Stages 1-2 of process_image_array: the pre-crop heuristic, else the
    detector hit with its box, else the full-image fallback. -/
def detectStage (env : Env) (meta : Metadata) :
    ℚ × Option BoundingBox × Metadata :=
  if isPlateCrop env.imageH env.imageW then
    (0.8, none, { meta with stagesApplied := meta.stagesApplied ++ [Stage.preCroppedPlate] })
  else
    match env.detection with
    | some det =>
      (det.2, some det.1,
       { meta with stagesApplied := meta.stagesApplied ++ [Stage.detection] })
    | none =>
      (0.5, none,
       { meta with stagesApplied := meta.stagesApplied ++ [Stage.fallbackFullImage] })

/-- The fall-through RecognitionResult of process_image_array. -/
def mkFinalResult (cfg : RecognitionConfig) (detectionConfidence : ℚ)
    (boundingBox : Option BoundingBox) (ocrResult : OCRResult)
    (validation : ValidationResult) (overallConfidence : ℚ) (meta : Metadata) :
    RecognitionResult :=
  { plateNumber :=
      if validation.isValid || decide ((0.3 : ℚ) < validation.confidence) then
        some validation.text
      else none,
    confidenceScore := overallConfidence,
    detectionConfidence := detectionConfidence,
    ocrConfidence := ocrResult.confidence,
    boundingBox := boundingBox,
    plateRegion := validation.region,
    needsReview := shouldFlagForReview cfg detectionConfidence ocrResult.confidence
      validation.confidence,
    processingMetadata := meta }

/-- RecognitionService.process_image_array. -/
def processImageArray (cfg : RecognitionConfig) (env : Env) : RecognitionResult :=
  let meta0 : Metadata := { attempts := 0, stagesApplied := [] }
  let detected := detectStage env meta0
  let detectionConfidence := detected.1
  let boundingBox := detected.2.1
  let ocrResult := EasyOCREngine.extractText cfg.minOcrConfidence env.initialSegments
  let meta1 : Metadata := { detected.2.2 with attempts := detected.2.2.attempts + 1 }
  let validation := validateOcrResult cfg ocrResult
  let overallConfidence := calculateConfidence detectionConfidence ocrResult.confidence
    validation.confidence
  let retried :=
    if cfg.enableEnhancedRetry ∧ overallConfidence < cfg.needsReviewThreshold ∧
        meta1.attempts < cfg.maxProcessingAttempts then
      retryWithPreprocessing cfg env detectionConfidence meta1
    else (none, meta1)
  match retried.1 with
  | some enhancedResult =>
    if overallConfidence < enhancedResult.confidenceScore then enhancedResult
    else
      mkFinalResult cfg detectionConfidence boundingBox ocrResult validation
        overallConfidence retried.2
  | none =>
    mkFinalResult cfg detectionConfidence boundingBox ocrResult validation
      overallConfidence retried.2

end RecognitionService

/- ------------------------------------------------------------------ -/
/- Character-level helper lemmas.                                      -/
/- ------------------------------------------------------------------ -/

theorem toUpper_toNat_of_lower (c : Char) (h : 97 ≤ c.toNat ∧ c.toNat ≤ 122) :
    (Char.toUpper c).toNat = c.toNat - 32 := by
  unfold Char.toUpper
  rw [if_pos (by omega : c.toNat ≥ 97 ∧ c.toNat ≤ 122)]
  have hv : (c.toNat - 32).isValidChar := by
    unfold Nat.isValidChar
    left
    omega
  rw [Char.ofNat, dif_pos hv]
  rfl

theorem toUpper_eq_self_of_not_lower (c : Char) (h : ¬(97 ≤ c.toNat ∧ c.toNat ≤ 122)) :
    Char.toUpper c = c := by
  unfold Char.toUpper
  rw [if_neg (by omega : ¬(c.toNat ≥ 97 ∧ c.toNat ≤ 122))]

theorem pyIsDigit_toUpper (c : Char) : pyIsDigit (Char.toUpper c) = pyIsDigit c := by
  by_cases h : 97 ≤ c.toNat ∧ c.toNat ≤ 122
  · have ht := toUpper_toNat_of_lower c h
    simp only [pyIsDigit, ht]
    rw [decide_eq_decide]
    omega
  · rw [toUpper_eq_self_of_not_lower c h]

theorem pyIsAlpha_toUpper (c : Char) : pyIsAlpha (Char.toUpper c) = pyIsAlpha c := by
  by_cases h : 97 ≤ c.toNat ∧ c.toNat ≤ 122
  · have ht := toUpper_toNat_of_lower c h
    simp only [pyIsAlpha, ht]
    rw [decide_eq_decide]
    omega
  · rw [toUpper_eq_self_of_not_lower c h]

theorem toUpper_toUpper (c : Char) : Char.toUpper (Char.toUpper c) = Char.toUpper c := by
  by_cases h : 97 ≤ c.toNat ∧ c.toNat ≤ 122
  · have ht := toUpper_toNat_of_lower c h
    exact toUpper_eq_self_of_not_lower (Char.toUpper c) (by omega)
  · rw [toUpper_eq_self_of_not_lower c h]
    exact toUpper_eq_self_of_not_lower c h

theorem isAsciiAlnum_toUpper (c : Char) (h : isAsciiAlnum c = true) :
    isAsciiAlnum (Char.toUpper c) = true := by
  simp only [isAsciiAlnum, pyIsAlpha, pyIsDigit, Bool.or_eq_true, decide_eq_true_eq] at h ⊢
  by_cases hl : 97 ≤ c.toNat ∧ c.toNat ≤ 122
  · have ht := toUpper_toNat_of_lower c hl
    rw [ht]
    omega
  · rw [toUpper_eq_self_of_not_lower c hl]
    omega

theorem toUpper_upper_or_digit (c : Char) (h : isAsciiAlnum c = true) :
    (isUpperAZ (Char.toUpper c) || pyIsDigit (Char.toUpper c)) = true := by
  simp only [isAsciiAlnum, pyIsAlpha, pyIsDigit, Bool.or_eq_true, decide_eq_true_eq] at h
  simp only [isUpperAZ, pyIsDigit, Bool.or_eq_true, decide_eq_true_eq]
  by_cases hl : 97 ≤ c.toNat ∧ c.toNat ≤ 122
  · have ht := toUpper_toNat_of_lower c hl
    rw [ht]
    omega
  · rw [toUpper_eq_self_of_not_lower c hl]
    omega

theorem isSpaceOrHyphen_toUpper (c : Char) :
    isSpaceOrHyphen (Char.toUpper c) = isSpaceOrHyphen c := by
  by_cases h : 97 ≤ c.toNat ∧ c.toNat ≤ 122
  · have ht := toUpper_toNat_of_lower c h
    simp only [isSpaceOrHyphen, ht]
    rw [decide_eq_decide]
    omega
  · rw [toUpper_eq_self_of_not_lower c h]

theorem pyIsAlpha_digit_false (c : Char) (h : pyIsAlpha c = true) : pyIsDigit c = false := by
  simp only [pyIsAlpha, decide_eq_true_eq] at h
  simp only [pyIsDigit, decide_eq_false_iff_not]
  omega

theorem pyIsDigit_alpha_false (c : Char) (h : pyIsDigit c = true) : pyIsAlpha c = false := by
  simp only [pyIsDigit, decide_eq_true_eq] at h
  simp only [pyIsAlpha, decide_eq_false_iff_not]
  omega

/- ------------------------------------------------------------------ -/
/- C5 (corrected).                                                     -/
/- ------------------------------------------------------------------ -/

theorem vnorm_list_idem (l : List Char) :
    (((l.filter isAsciiAlnum).map Char.toUpper).filter isAsciiAlnum).map Char.toUpper =
      (l.filter isAsciiAlnum).map Char.toUpper := by
  induction l with
  | nil => rfl
  | cons c l ih =>
    cases hA : isAsciiAlnum c with
    | false => simpa [List.filter_cons, hA] using ih
    | true =>
      simp only [List.filter_cons, hA, if_pos, List.map_cons,
        isAsciiAlnum_toUpper c hA, toUpper_toUpper]
      exact congrArg _ ih

theorem rnorm_list_idem (l : List Char) :
    (((l.map Char.toUpper).filter (fun c => !(isSpaceOrHyphen c))).map Char.toUpper).filter
        (fun c => !(isSpaceOrHyphen c)) =
      (l.map Char.toUpper).filter (fun c => !(isSpaceOrHyphen c)) := by
  induction l with
  | nil => rfl
  | cons c l ih =>
    cases hS : isSpaceOrHyphen (Char.toUpper c) with
    | true => simpa [List.filter_cons, hS] using ih
    | false =>
      simp only [List.map_cons, List.filter_cons, hS, Bool.not_false, if_pos,
        toUpper_toUpper, isSpaceOrHyphen_toUpper]
      rw [ih]

/-- C5, counterexample: the claim says both normalizers produce only
    alphanumeric characters, but the registry normalizer only strips
    whitespace and hyphens, so the dot of "A.B" survives. -/
theorem registry_normalize_not_alnum_counterexample :
    PlateFormatRegistry.normalize "A.B" = "A.B" ∧
    '.' ∈ (PlateFormatRegistry.normalize "A.B").data ∧
    isAsciiAlnum '.' = false := by
  refine ⟨by decide, by decide, by decide⟩

/-- C5, amended: the validator normalizer maps every string to uppercase
    alphanumerics only, and both normalizers are idempotent; the registry
    normalizer only removes whitespace and hyphens and upper-cases, so its
    output need not be alphanumeric. -/
theorem normalize_classes_and_idempotent :
    (∀ s : String,
      ((PlateValidator.normalize s).data.all (fun c => isUpperAZ c || pyIsDigit c)) = true) ∧
    (∀ s : String,
      PlateValidator.normalize (PlateValidator.normalize s) = PlateValidator.normalize s) ∧
    (∀ s : String,
      PlateFormatRegistry.normalize (PlateFormatRegistry.normalize s) =
        PlateFormatRegistry.normalize s) := by
  refine ⟨fun s => ?_, fun s => ?_, fun s => ?_⟩
  · rw [List.all_eq_true]
    intro c hc
    simp only [PlateValidator.normalize, List.mem_map, List.mem_filter] at hc
    obtain ⟨d, ⟨_, hd⟩, rfl⟩ := hc
    exact toUpper_upper_or_digit d hd
  · show String.mk _ = String.mk _
    exact congrArg String.mk (vnorm_list_idem s.data)
  · show String.mk _ = String.mk _
    exact congrArg String.mk (rnorm_list_idem s.data)

/- ------------------------------------------------------------------ -/
/- C6 (confirmed).                                                     -/
/- ------------------------------------------------------------------ -/

/-- C6: for both Brazilian rules, a replacement is returned only when the
    character class of c disagrees with the expected class of the slot (a
    digit in a letter slot is looked up only in the digit-to-letter table, a
    letter in a digit slot only in the letter-to-digit table), and a
    character already of the expected class is never changed. -/
theorem get_correction_class_discipline (c : Char) (p : ℕ) :
    (∀ r, BrazilMercosulRule.getCorrection c p = some r →
      (BrazilMercosulRule.positionTypes p = some "letter" ∧ pyIsDigit c = true ∧
        BrazilMercosulRule.digitToLetter (Char.toUpper c) = some r) ∨
      (BrazilMercosulRule.positionTypes p = some "digit" ∧ pyIsAlpha c = true ∧
        BrazilMercosulRule.letterToDigit (Char.toUpper c) = some r)) ∧
    (BrazilMercosulRule.positionTypes p = some "letter" → pyIsAlpha c = true →
      BrazilMercosulRule.getCorrection c p = none) ∧
    (BrazilMercosulRule.positionTypes p = some "digit" → pyIsDigit c = true →
      BrazilMercosulRule.getCorrection c p = none) ∧
    (∀ r, BrazilOldRule.getCorrection c p = some r →
      (BrazilOldRule.positionTypes p = some "letter" ∧ pyIsDigit c = true ∧
        BrazilOldRule.digitToLetter (Char.toUpper c) = some r) ∨
      (BrazilOldRule.positionTypes p = some "digit" ∧ pyIsAlpha c = true ∧
        BrazilOldRule.letterToDigit (Char.toUpper c) = some r)) ∧
    (BrazilOldRule.positionTypes p = some "letter" → pyIsAlpha c = true →
      BrazilOldRule.getCorrection c p = none) ∧
    (BrazilOldRule.positionTypes p = some "digit" → pyIsDigit c = true →
      BrazilOldRule.getCorrection c p = none) := by
  refine ⟨fun r h => ?_, fun hp hc => ?_, fun hp hc => ?_,
         fun r h => ?_, fun hp hc => ?_, fun hp hc => ?_⟩
  · rw [BrazilMercosulRule.getCorrection] at h
    rcases hpt : BrazilMercosulRule.positionTypes p with _ | t <;> rw [hpt] at h
    · exact Option.noConfusion h
    · dsimp only at h
      split at h
      · rename_i ht
        split at h
        · rename_i hd
          rw [pyIsDigit_toUpper] at hd
          exact Or.inl ⟨by rw [ht], hd, h⟩
        · exact Option.noConfusion h
      · split at h
        · rename_i ht ht2
          split at h
          · rename_i ha
            rw [pyIsAlpha_toUpper] at ha
            exact Or.inr ⟨by rw [ht2], ha, h⟩
          · exact Option.noConfusion h
        · exact Option.noConfusion h
  · have hd : pyIsDigit (Char.toUpper c) = false := by
      rw [pyIsDigit_toUpper]
      exact pyIsAlpha_digit_false c hc
    simp [BrazilMercosulRule.getCorrection, hp, hd]
  · have ha : pyIsAlpha (Char.toUpper c) = false := by
      rw [pyIsAlpha_toUpper]
      exact pyIsDigit_alpha_false c hc
    simp [BrazilMercosulRule.getCorrection, hp, ha]
  · rw [BrazilOldRule.getCorrection] at h
    rcases hpt : BrazilOldRule.positionTypes p with _ | t <;> rw [hpt] at h
    · exact Option.noConfusion h
    · dsimp only at h
      split at h
      · rename_i ht
        split at h
        · rename_i hd
          rw [pyIsDigit_toUpper] at hd
          exact Or.inl ⟨by rw [ht], hd, h⟩
        · exact Option.noConfusion h
      · split at h
        · rename_i ht ht2
          split at h
          · rename_i ha
            rw [pyIsAlpha_toUpper] at ha
            exact Or.inr ⟨by rw [ht2], ha, h⟩
          · exact Option.noConfusion h
        · exact Option.noConfusion h
  · have hd : pyIsDigit (Char.toUpper c) = false := by
      rw [pyIsDigit_toUpper]
      exact pyIsAlpha_digit_false c hc
    simp [BrazilOldRule.getCorrection, hp, hd]
  · have ha : pyIsAlpha (Char.toUpper c) = false := by
      rw [pyIsAlpha_toUpper]
      exact pyIsDigit_alpha_false c hc
    simp [BrazilOldRule.getCorrection, hp, ha]

/-- C6, witness: position 0 is a letter slot and the letter A is left alone;
    position 3 of the Mercosul rule is a digit slot and the digit 1 is left
    alone. -/
theorem get_correction_class_discipline_witness :
    BrazilMercosulRule.getCorrection 'A' 0 = none ∧
    BrazilMercosulRule.getCorrection '1' 3 = none :=
  ⟨(get_correction_class_discipline 'A' 0).2.1 (by decide) (by decide),
   (get_correction_class_discipline '1' 3).2.2.1 (by decide) (by decide)⟩

/- ------------------------------------------------------------------ -/
/- C3 (corrected).                                                     -/
/- ------------------------------------------------------------------ -/

/-- C3, counterexample: for a 100 by 100 image, the box at the origin with
    width and height 5 and padding 10, the code crops rows and columns
    0 to 25, not the claimed clamp min(100, 0 + 5 + 10) = 15: the padding
    clipped at the top and left edges reappears past the other side of the
    box. -/
theorem crop_plate_claim_counterexample :
    cropPlateBounds 100 100 ⟨0, 0, 5, 5⟩ 10 = (0, 25, 0, 25) ∧
    (max 0 ((0 : ℤ) - 10), min (100 : ℤ) (0 + 5 + 10),
     max 0 ((0 : ℤ) - 10), min (100 : ℤ) (0 + 5 + 10)) = ((0 : ℤ), 15, (0 : ℤ), 15) ∧
    ((0 : ℤ), (25 : ℤ), (0 : ℤ), (25 : ℤ)) ≠ ((0 : ℤ), (15 : ℤ), (0 : ℤ), (15 : ℤ)) := by
  refine ⟨by decide, by decide, by decide⟩

/-- C3, amended: the crop spans rows max(0, y-p) to min(H, max(0, y-p) +
    height + 2p) and columns max(0, x-p) to min(W, max(0, x-p) + width +
    2p): the code widens the box by 2p in each dimension anchored at the
    clamped lower corner, so padding clipped at the top or left spills past
    the bottom or right of the box. -/
theorem crop_plate_bounds_eq (h w : ℤ) (b : BoundingBox) (p : ℤ) :
    cropPlateBounds h w b p =
      (max 0 (b.y - p), min h (max 0 (b.y - p) + b.height + 2 * p),
       max 0 (b.x - p), min w (max 0 (b.x - p) + b.width + 2 * p)) := by
  simp only [cropPlateBounds, BoundingBox.addPadding, BoundingBox.toXYXY,
    Prod.mk.injEq]
  refine ⟨trivial, by omega, trivial, by omega⟩

/- ------------------------------------------------------------------ -/
/- C4 (corrected).                                                     -/
/- ------------------------------------------------------------------ -/

/-- C4, counterexample: with one initial attempt on the books and every
    retry configuration raising, the retry loop leaves the counter at 1,
    not the 2 (or more) the claim's "attempt is still counted" requires. -/
theorem retry_attempt_counted_counterexample :
    (RecognitionService.retryWithPreprocessing .default
        ⟨0, 0, none, [], fun _ => none⟩ (1 / 2) ⟨1, []⟩).2.attempts = 1 ∧
    (RecognitionService.retryWithPreprocessing .default
        ⟨0, 0, none, [], fun _ => none⟩ (1 / 2) ⟨1, []⟩).2.attempts ≠ 2 := by
  refine ⟨by decide, by decide⟩

theorem retryLoop_attempts_le_successes (cfg : RecognitionConfig) (env : Env)
    (d : ℚ) : ∀ (l : List ℕ) (best : Option RecognitionResult) (bc : ℚ) (meta : Metadata),
    (RecognitionService.retryLoop cfg env d l best bc meta).2.attempts ≤
      meta.attempts + l.countP (fun i => (env.retrySegments i).isSome) := by
  intro l
  induction l with
  | nil => intro best bc meta; simp [RecognitionService.retryLoop]
  | cons i rest ih =>
    intro best bc meta
    rw [RecognitionService.retryLoop]
    split
    · simp
    · split
      · rename_i hseg
        refine le_trans (ih best bc meta) ?_
        simp [List.countP_cons, hseg]
      · rename_i segments hseg
        dsimp only
        split
        · split
          · simp [List.countP_cons, hseg]
          · refine le_trans (ih _ _ _) ?_
            simp [List.countP_cons, hseg]
            omega
        · split
          · simp [List.countP_cons, hseg]
          · refine le_trans (ih _ _ _) ?_
            simp [List.countP_cons, hseg]
            omega

theorem retryLoop_all_none (cfg : RecognitionConfig) (env : Env) (d : ℚ)
    (hnone : ∀ i, env.retrySegments i = none) :
    ∀ (l : List ℕ) (best : Option RecognitionResult) (bc : ℚ) (meta : Metadata),
    RecognitionService.retryLoop cfg env d l best bc meta = (best, meta) := by
  intro l
  induction l with
  | nil => intro best bc meta; rfl
  | cons i rest ih =>
    intro best bc meta
    rw [RecognitionService.retryLoop]
    by_cases hguard : cfg.maxProcessingAttempts ≤ meta.attempts
    · rw [if_pos hguard]
    · rw [if_neg hguard, hnone i]
      exact ih best bc meta

/-- C4, amended: a raising attempt is swallowed and the loop moves to the
    next configuration, but the attempt is not counted: attempts can only
    grow by the number of configurations whose preprocessing and OCR
    complete, and when every attempt raises the metadata is returned
    untouched with no result. -/
theorem retry_exceptions_skipped_not_counted (cfg : RecognitionConfig) (env : Env)
    (detectionConfidence : ℚ) (meta : Metadata) :
    (RecognitionService.retryWithPreprocessing cfg env detectionConfidence meta).2.attempts ≤
      meta.attempts + (List.range RecognitionService.preprocessingConfigCount).countP
        (fun i => (env.retrySegments i).isSome) ∧
    ((∀ i, env.retrySegments i = none) →
      RecognitionService.retryWithPreprocessing cfg env detectionConfidence meta =
        (none, meta)) := by
  constructor
  · exact retryLoop_attempts_le_successes cfg env detectionConfidence _ none 0 meta
  · intro hnone
    exact retryLoop_all_none cfg env detectionConfidence hnone _ none 0 meta

/-- C4, witness for the amended theorem: every configuration raising leaves
    the metadata untouched. -/
theorem retry_exceptions_skipped_not_counted_witness :
    RecognitionService.retryWithPreprocessing .default
      ⟨0, 0, none, [], fun _ => none⟩ 0 ⟨1, []⟩ = (none, ⟨1, []⟩) :=
  (retry_exceptions_skipped_not_counted .default ⟨0, 0, none, [], fun _ => none⟩ 0
    ⟨1, []⟩).2 (fun _ => rfl)

/- ------------------------------------------------------------------ -/
/- C7 (confirmed).                                                     -/
/- ------------------------------------------------------------------ -/

theorem charResults_spec (conf : ℚ) : ∀ (l : List Char) (pos : ℕ),
    (EasyOCREngine.charResults conf l pos).map CharacterResult.char = l ∧
    (EasyOCREngine.charResults conf l pos).map CharacterResult.position =
      List.range' pos l.length ∧
    (EasyOCREngine.charResults conf l pos).map CharacterResult.confidence =
      List.replicate l.length conf := by
  intro l
  induction l with
  | nil => intro pos; exact ⟨rfl, rfl, rfl⟩
  | cons c l ih =>
    intro pos
    obtain ⟨h1, h2, h3⟩ := ih (pos + 1)
    refine ⟨?_, ?_, ?_⟩
    · simp [EasyOCREngine.charResults, h1]
    · simp [EasyOCREngine.charResults, h2, List.range'_succ]
    · simp [EasyOCREngine.charResults, h3, List.replicate_succ]

theorem range'_append_comm (s m n : ℕ) :
    List.range' s m ++ List.range' (s + m) n = List.range' s (m + n) := by
  have h := List.range'_append s m n 1
  simp only [one_mul] at h
  rw [Nat.add_comm m n]
  exact h

theorem extractLoop_spec (minConfidence : ℚ) : ∀ (segs : List RawSegment) (pos : ℕ),
    (EasyOCREngine.extractLoop minConfidence segs pos).1 =
      (segs.filter (fun s => !decide (s.2 < minConfidence))).map Prod.fst ∧
    (EasyOCREngine.extractLoop minConfidence segs pos).2.1.map CharacterResult.char =
      (EasyOCREngine.joinTexts
        ((segs.filter (fun s => !decide (s.2 < minConfidence))).map Prod.fst)).data ∧
    (EasyOCREngine.extractLoop minConfidence segs pos).2.1.map CharacterResult.position =
      List.range' pos (EasyOCREngine.joinTexts
        ((segs.filter (fun s => !decide (s.2 < minConfidence))).map Prod.fst)).length ∧
    (EasyOCREngine.extractLoop minConfidence segs pos).2.1.map CharacterResult.confidence =
      ((segs.filter (fun s => !decide (s.2 < minConfidence))).map
        (fun s => List.replicate s.1.length s.2)).flatten ∧
    (EasyOCREngine.extractLoop minConfidence segs pos).2.2.1 =
      ((segs.filter (fun s => !decide (s.2 < minConfidence))).map Prod.snd).sum ∧
    (EasyOCREngine.extractLoop minConfidence segs pos).2.2.2 =
      (segs.filter (fun s => !decide (s.2 < minConfidence))).length := by
  intro segs
  induction segs with
  | nil => intro pos; exact ⟨rfl, rfl, rfl, rfl, rfl, rfl⟩
  | cons seg rest ih =>
    intro pos
    obtain ⟨t, c⟩ := seg
    by_cases hc : c < minConfidence
    · obtain ⟨h1, h2, h3, h4, h5, h6⟩ := ih pos
      have hfilt : List.filter (fun s => !decide (s.2 < minConfidence)) ((t, c) :: rest) =
          List.filter (fun s => !decide (s.2 < minConfidence)) rest := by
        simp [List.filter_cons, hc]
      rw [EasyOCREngine.extractLoop]
      simp only [hfilt, if_pos hc]
      exact ⟨h1, h2, h3, h4, h5, h6⟩
    · obtain ⟨h1, h2, h3, h4, h5, h6⟩ := ih (pos + t.length)
      obtain ⟨hc1, hc2, hc3⟩ := charResults_spec c t.data pos
      have hfilt : List.filter (fun s => !decide (s.2 < minConfidence)) ((t, c) :: rest) =
          (t, c) :: List.filter (fun s => !decide (s.2 < minConfidence)) rest := by
        simp [List.filter_cons, hc]
      have hlen : t.data.length = t.length := rfl
      rw [EasyOCREngine.extractLoop]
      simp only [hfilt, if_neg hc, List.map_cons]
      refine ⟨?_, ?_, ?_, ?_, ?_, ?_⟩
      · rw [h1]
      · simp only [List.map_append, hc1, h2, EasyOCREngine.joinTexts, String.data_append]
      · simp only [List.map_append, hc2, h3, EasyOCREngine.joinTexts]
        rw [String.length_append, hlen]
        exact range'_append_comm pos t.length _
      · simp only [List.map_append, hc3, h4, List.flatten_cons, hlen]
      · simp only [h5, List.sum_cons]
      · simp only [h6, List.length_cons]

/-- C7: extract_text aggregates exactly the segments at or above
    min_confidence: the text concatenates their texts in engine order, the
    confidence is the arithmetic mean of their confidences (0 when none is
    accepted), and the character results carry, character by character, each
    accepted segment's confidence, positioned by offset in the concatenated
    text. -/
theorem extract_text_aggregation (minConfidence : ℚ) (segments : List RawSegment) :
    (EasyOCREngine.extractText minConfidence segments).text =
      EasyOCREngine.joinTexts
        ((segments.filter (fun s => !decide (s.2 < minConfidence))).map Prod.fst) ∧
    (EasyOCREngine.extractText minConfidence segments).confidence =
      (if (segments.filter (fun s => !decide (s.2 < minConfidence))).length = 0 then 0
       else ((segments.filter (fun s => !decide (s.2 < minConfidence))).map Prod.snd).sum /
         (((segments.filter (fun s => !decide (s.2 < minConfidence))).length : ℕ) : ℚ)) ∧
    (EasyOCREngine.extractText minConfidence segments).characters.map
        CharacterResult.char =
      (EasyOCREngine.extractText minConfidence segments).text.data ∧
    (EasyOCREngine.extractText minConfidence segments).characters.map
        CharacterResult.position =
      List.range (EasyOCREngine.extractText minConfidence segments).text.length ∧
    (EasyOCREngine.extractText minConfidence segments).characters.map
        CharacterResult.confidence =
      ((segments.filter (fun s => !decide (s.2 < minConfidence))).map
        (fun s => List.replicate s.1.length s.2)).flatten := by
  cases segments with
  | nil => exact ⟨rfl, rfl, rfl, rfl, rfl⟩
  | cons seg rest =>
    obtain ⟨h1, h2, h3, h4, h5, h6⟩ := extractLoop_spec minConfidence (seg :: rest) 0
    simp only [EasyOCREngine.extractText]
    refine ⟨?_, ?_, ?_, ?_, ?_⟩
    · rw [h1]
    · rw [h5, h6]
      by_cases hz : ((seg :: rest).filter (fun s => !decide (s.2 < minConfidence))).length = 0
      · rw [if_pos hz, if_neg (by omega)]
      · rw [if_neg hz, if_pos (by omega)]
    · rw [h2, h1]
    · rw [h3, h1, List.range_eq_range']
    · exact h4


/- ------------------------------------------------------------------ -/
/- C2 (confirmed).                                                     -/
/- ------------------------------------------------------------------ -/

theorem retryLoop_review_inv (cfg : RecognitionConfig) (env : Env) (d : ℚ) :
    ∀ (l : List ℕ) (best : Option RecognitionResult) (bc : ℚ) (meta : Metadata),
    (∀ r, best = some r →
      r.needsReview = decide (r.confidenceScore < cfg.needsReviewThreshold)) →
    ∀ r, (RecognitionService.retryLoop cfg env d l best bc meta).1 = some r →
      r.needsReview = decide (r.confidenceScore < cfg.needsReviewThreshold) := by
  intro l
  induction l with
  | nil => intro best bc meta hbest r hr; exact hbest r hr
  | cons i rest ih =>
    intro best bc meta hbest r hr
    rw [RecognitionService.retryLoop] at hr
    split at hr
    · exact hbest r hr
    · split at hr
      · exact ih best bc meta hbest r hr
      · dsimp only at hr
        split at hr
        · split at hr
          · simp only at hr
            cases hr
            rfl
          · refine ih _ _ _ ?_ r hr
            intro r' hr'
            cases hr'
            rfl
        · split at hr
          · exact hbest r hr
          · exact ih best bc _ hbest r hr

theorem retryWithPreprocessing_review (cfg : RecognitionConfig) (env : Env)
    (d : ℚ) (meta : Metadata) :
    ∀ r, (RecognitionService.retryWithPreprocessing cfg env d meta).1 = some r →
      r.needsReview = decide (r.confidenceScore < cfg.needsReviewThreshold) :=
  retryLoop_review_inv cfg env d (List.range RecognitionService.preprocessingConfigCount)
    none 0 meta (fun _ hr => Option.noConfusion hr)

/-- C2: every result emitted by process_image_array, from the initial pass or
    from a retry, has needs_review set exactly when its confidence_score is
    below the configured needs_review threshold. -/
theorem needs_review_iff_below_threshold (cfg : RecognitionConfig) (env : Env) :
    (RecognitionService.processImageArray cfg env).needsReview = true ↔
      (RecognitionService.processImageArray cfg env).confidenceScore <
        cfg.needsReviewThreshold := by
  have key : (RecognitionService.processImageArray cfg env).needsReview =
      decide ((RecognitionService.processImageArray cfg env).confidenceScore <
        cfg.needsReviewThreshold) := by
    rw [RecognitionService.processImageArray]
    dsimp only
    split
    · rename_i er heq
      split
      · split at heq
        · exact retryWithPreprocessing_review cfg env _ _ er heq
        · exact Option.noConfusion heq
      · rfl
    · rfl
  rw [key, decide_eq_true_iff]

/- ------------------------------------------------------------------ -/
/- C9 (confirmed).                                                     -/
/- ------------------------------------------------------------------ -/

theorem detectStage_attempts (env : Env) (meta : Metadata) :
    (RecognitionService.detectStage env meta).2.2.attempts = meta.attempts := by
  rw [RecognitionService.detectStage]
  split
  · rfl
  · split <;> rfl

theorem retryLoop_attempts_inv (cfg : RecognitionConfig) (env : Env) (d : ℚ) :
    ∀ (l : List ℕ) (best : Option RecognitionResult) (bc : ℚ) (meta : Metadata),
    1 ≤ meta.attempts → meta.attempts ≤ cfg.maxProcessingAttempts →
    (∀ r, best = some r → 1 ≤ r.processingMetadata.attempts ∧
      r.processingMetadata.attempts ≤ cfg.maxProcessingAttempts) →
    (1 ≤ (RecognitionService.retryLoop cfg env d l best bc meta).2.attempts ∧
      (RecognitionService.retryLoop cfg env d l best bc meta).2.attempts ≤
        cfg.maxProcessingAttempts) ∧
    ∀ r, (RecognitionService.retryLoop cfg env d l best bc meta).1 = some r →
      1 ≤ r.processingMetadata.attempts ∧
      r.processingMetadata.attempts ≤ cfg.maxProcessingAttempts := by
  intro l
  induction l with
  | nil => intro best bc meta h1 h2 hbest; exact ⟨⟨h1, h2⟩, hbest⟩
  | cons i rest ih =>
    intro best bc meta h1 h2 hbest
    rw [RecognitionService.retryLoop]
    split
    · exact ⟨⟨h1, h2⟩, hbest⟩
    · rename_i hguard
      split
      · exact ih best bc meta h1 h2 hbest
      · dsimp only
        split
        · split
          · refine ⟨⟨?_, ?_⟩, ?_⟩
            · show 1 ≤ meta.attempts + 1
              omega
            · show meta.attempts + 1 ≤ cfg.maxProcessingAttempts
              omega
            · intro r hr
              simp only at hr
              cases hr
              refine ⟨?_, ?_⟩
              · show 1 ≤ meta.attempts + 1
                omega
              · show meta.attempts + 1 ≤ cfg.maxProcessingAttempts
                omega
          · refine ih _ _ _ ?_ ?_ ?_
            · show 1 ≤ meta.attempts + 1
              omega
            · show meta.attempts + 1 ≤ cfg.maxProcessingAttempts
              omega
            · intro r hr
              cases hr
              refine ⟨?_, ?_⟩
              · show 1 ≤ meta.attempts + 1
                omega
              · show meta.attempts + 1 ≤ cfg.maxProcessingAttempts
                omega
        · split
          · refine ⟨⟨?_, ?_⟩, fun r hr => hbest r hr⟩
            · show 1 ≤ meta.attempts + 1
              omega
            · show meta.attempts + 1 ≤ cfg.maxProcessingAttempts
              omega
          · refine ih best bc _ ?_ ?_ hbest
            · show 1 ≤ meta.attempts + 1
              omega
            · show meta.attempts + 1 ≤ cfg.maxProcessingAttempts
              omega

/-- C9: every result of process_image_array reports between 1 and
    max_processing_attempts attempts: the initial OCR pass counts one, the
    retry loop stops at the budget. -/
theorem attempts_bounds (cfg : RecognitionConfig) (env : Env)
    (hmax : 1 ≤ cfg.maxProcessingAttempts) :
    1 ≤ (RecognitionService.processImageArray cfg env).processingMetadata.attempts ∧
    (RecognitionService.processImageArray cfg env).processingMetadata.attempts ≤
      cfg.maxProcessingAttempts := by
  rw [RecognitionService.processImageArray]
  dsimp only
  have hd : (RecognitionService.detectStage env ⟨0, []⟩).2.2.attempts = 0 :=
    detectStage_attempts env ⟨0, []⟩
  split
  · rename_i er heq
    split
    · split at heq
      · refine (retryLoop_attempts_inv cfg env _ _ none 0 _ ?_ ?_ ?_).2 er heq
        · show 1 ≤ (RecognitionService.detectStage env ⟨0, []⟩).2.2.attempts + 1
          omega
        · show (RecognitionService.detectStage env ⟨0, []⟩).2.2.attempts + 1 ≤
            cfg.maxProcessingAttempts
          omega
        · exact fun _ hr => Option.noConfusion hr
      · exact Option.noConfusion heq
    · rename_i hnotbetter
      split
      · refine (retryLoop_attempts_inv cfg env _ _ none 0 _ ?_ ?_ ?_).1
        · show 1 ≤ (RecognitionService.detectStage env ⟨0, []⟩).2.2.attempts + 1
          omega
        · show (RecognitionService.detectStage env ⟨0, []⟩).2.2.attempts + 1 ≤
            cfg.maxProcessingAttempts
          omega
        · exact fun _ hr => Option.noConfusion hr
      · show 1 ≤ (RecognitionService.detectStage env ⟨0, []⟩).2.2.attempts + 1 ∧
          (RecognitionService.detectStage env ⟨0, []⟩).2.2.attempts + 1 ≤
            cfg.maxProcessingAttempts
        omega
  · split
    · refine (retryLoop_attempts_inv cfg env _ _ none 0 _ ?_ ?_ ?_).1
      · show 1 ≤ (RecognitionService.detectStage env ⟨0, []⟩).2.2.attempts + 1
        omega
      · show (RecognitionService.detectStage env ⟨0, []⟩).2.2.attempts + 1 ≤
          cfg.maxProcessingAttempts
        omega
      · exact fun _ hr => Option.noConfusion hr
    · show 1 ≤ (RecognitionService.detectStage env ⟨0, []⟩).2.2.attempts + 1 ∧
        (RecognitionService.detectStage env ⟨0, []⟩).2.2.attempts + 1 ≤
          cfg.maxProcessingAttempts
      omega

/-- C9, witness: the default configuration allows three attempts and a run
    with no detections, no OCR text and failing retries reports a count in
    bounds. -/
theorem attempts_bounds_witness :
    1 ≤ RecognitionConfig.default.maxProcessingAttempts ∧
    (1 ≤ (RecognitionService.processImageArray .default
        ⟨0, 0, none, [], fun _ => none⟩).processingMetadata.attempts ∧
      (RecognitionService.processImageArray .default
        ⟨0, 0, none, [], fun _ => none⟩).processingMetadata.attempts ≤
        RecognitionConfig.default.maxProcessingAttempts) :=
  ⟨by decide, attempts_bounds .default ⟨0, 0, none, [], fun _ => none⟩ (by decide)⟩

/- ------------------------------------------------------------------ -/
/- C10 (confirmed).                                                    -/
/- ------------------------------------------------------------------ -/

theorem correctPositions_le (text : String) (fmt : PlateFormat) (n : ℕ) :
    PlateFormatRegistry.correctPositions text fmt n ≤ n := by
  refine le_trans (List.countP_le_length _) ?_
  simp

theorem calculateMatchScore_bounds (text : String) (fmt : PlateFormat) :
    0 ≤ PlateFormatRegistry.calculateMatchScore text fmt ∧
    PlateFormatRegistry.calculateMatchScore text fmt ≤ 1 := by
  rw [PlateFormatRegistry.calculateMatchScore]
  split
  · exact ⟨le_refl 0, by norm_num⟩
  · rename_i hdiff
    split
    · exact ⟨le_refl 0, by norm_num⟩
    · rename_i hlen
      set D : ℕ := max (text.length - fmt.rule.getPlateLength)
        (fmt.rule.getPlateLength - text.length) with hD
      set T : ℕ := min text.length fmt.rule.getPlateLength with hT
      set PS : ℚ := if 0 < T then
          ((PlateFormatRegistry.correctPositions text fmt T : ℚ) / (T : ℚ))
        else 0 with hPS
      have hD2 : (D : ℚ) ≤ 2 := by
        have : D ≤ 2 := by omega
        exact_mod_cast this
      have hD0 : (0 : ℚ) ≤ (D : ℚ) := Nat.cast_nonneg D
      have hps0 : 0 ≤ PS := by
        rw [hPS]
        split
        · positivity
        · exact le_refl 0
      have hps1 : PS ≤ 1 := by
        rw [hPS]
        split
        · rename_i hTpos
          rw [div_le_one (by exact_mod_cast hTpos)]
          exact_mod_cast correctPositions_le text fmt T
        · norm_num
      constructor
      · nlinarith [hps0, hps1, hD2, hD0]
      · nlinarith [hps0, hps1, hD2, hD0]

theorem matchAgainst_bounds (formats : List PlateFormat) (normalized : String) :
    0 ≤ (PlateFormatRegistry.matchAgainst formats normalized).2 ∧
    (PlateFormatRegistry.matchAgainst formats normalized).2 ≤ 1 := by
  rw [PlateFormatRegistry.matchAgainst]
  split
  · exact ⟨by norm_num, le_refl 1⟩
  · have key : ∀ (fs : List PlateFormat) (acc : Option PlateFormat × ℚ),
        0 ≤ acc.2 → acc.2 ≤ 1 →
        0 ≤ (fs.foldl (fun best fmt =>
          let score := PlateFormatRegistry.calculateMatchScore normalized fmt
          if best.2 < score then (some fmt, score) else best) acc).2 ∧
        (fs.foldl (fun best fmt =>
          let score := PlateFormatRegistry.calculateMatchScore normalized fmt
          if best.2 < score then (some fmt, score) else best) acc).2 ≤ 1 := by
      intro fs
      induction fs with
      | nil => intro acc ha0 ha1; exact ⟨ha0, ha1⟩
      | cons f fs ih =>
        intro acc ha0 ha1
        rw [List.foldl_cons]
        dsimp only
        split
        · exact ih _ (calculateMatchScore_bounds normalized f).1
            (calculateMatchScore_bounds normalized f).2
        · exact ih acc ha0 ha1
    exact key formats (none, 0) (le_refl 0) (by norm_num)

theorem matched_bounds (normalized : String) (region : Option String) :
    0 ≤ (match region with
      | some r => PlateFormatRegistry.matchWithRegion normalized r
      | none => PlateFormatRegistry.matchText normalized).2 ∧
    (match region with
      | some r => PlateFormatRegistry.matchWithRegion normalized r
      | none => PlateFormatRegistry.matchText normalized).2 ≤ 1 := by
  cases region with
  | none => exact matchAgainst_bounds _ _
  | some r => exact matchAgainst_bounds _ _

theorem validate_confidence_nonneg (cfg : ValidationConfig) (text : String)
    (ocrConfidence : ℚ) (region : Option String) (h0 : 0 ≤ ocrConfidence) :
    0 ≤ (PlateValidator.validate cfg text ocrConfidence region).confidence := by
  rw [PlateValidator.validate.eq_def]
  dsimp only
  split
  · exact le_refl 0
  · split
    · exact mul_nonneg h0 (by norm_num)
    · split
      · split
        · exact h0
        · split
          · exact le_max_left 0 _
          · split
            · exact mul_nonneg h0 (by norm_num)
            · exact le_refl 0
      · split
        · exact mul_nonneg h0 (by norm_num)
        · exact le_refl 0

/-- C10: with the default configuration, for every input text, region and
    OCR confidence in [0, 1], the validation confidence lies between 0 and
    the OCR confidence: every branch scales the OCR confidence by a factor
    at most 1 (0, 0.3, 0.5, the soft match score penalised by corrections,
    or 1 on exact match), and the soft match score is itself at most 1. -/
theorem validate_confidence_bounds (text : String) (ocrConfidence : ℚ)
    (region : Option String) (h0 : 0 ≤ ocrConfidence) (_h1 : ocrConfidence ≤ 1) :
    0 ≤ (PlateValidator.validate .default text ocrConfidence region).confidence ∧
    (PlateValidator.validate .default text ocrConfidence region).confidence ≤
      ocrConfidence := by
  refine ⟨validate_confidence_nonneg _ _ _ _ h0, ?_⟩
  rw [PlateValidator.validate.eq_def]
  dsimp only
  split
  · exact h0
  · split
    · linarith [h0]
    · split
      · rename_i f s heq
        have hb := matched_bounds (PlateValidator.normalize text) region
        rw [heq] at hb
        obtain ⟨hs0, hs1⟩ := hb
        split
        · exact le_refl ocrConfidence
        · split
          · have hpen : 0 ≤ ((PlateValidator.applyCorrections
                (PlateValidator.normalize text) f.rule).2.length : ℚ) *
                ValidationConfig.default.correctionConfidencePenalty := by
              have : ValidationConfig.default.correctionConfidencePenalty = 0.05 := rfl
              rw [this]
              positivity
            refine max_le h0 ?_
            have hscale : ocrConfidence * s ≤ ocrConfidence :=
              mul_le_of_le_one_right h0 hs1
            linarith [hpen, hscale]
          · split
            · linarith [h0]
            · exact h0
      · split
        · linarith [h0]
        · exact h0

/-- C10, witness at text ABC1D23 with OCR confidence 1. -/
theorem validate_confidence_bounds_witness :
    (0 : ℚ) ≤ 1 ∧ (1 : ℚ) ≤ 1 ∧
    (0 ≤ (PlateValidator.validate .default "ABC1D23" 1 none).confidence ∧
     (PlateValidator.validate .default "ABC1D23" 1 none).confidence ≤ 1) :=
  ⟨zero_le_one, le_refl 1,
   validate_confidence_bounds "ABC1D23" 1 none zero_le_one (le_refl 1)⟩


/- ------------------------------------------------------------------ -/
/- C8 (confirmed).                                                     -/
/- ------------------------------------------------------------------ -/

theorem keyGE_refl (r : ValidationResult) : PlateValidator.keyGE r r = true := by
  simp [PlateValidator.keyGE]

theorem keyGE_total (r s : ValidationResult) :
    (PlateValidator.keyGE r s || PlateValidator.keyGE s r) = true := by
  simp only [PlateValidator.keyGE, Bool.or_eq_true, Bool.and_eq_true,
    decide_eq_true_eq]
  cases hr : r.isValid <;> cases hs : s.isValid <;>
    rcases le_total r.confidence s.confidence with h | h <;> simp [h]

theorem keyGE_trans (a b c : ValidationResult)
    (hab : PlateValidator.keyGE a b = true) (hbc : PlateValidator.keyGE b c = true) :
    PlateValidator.keyGE a c = true := by
  simp only [PlateValidator.keyGE, Bool.or_eq_true, Bool.and_eq_true,
    decide_eq_true_eq] at hab hbc ⊢
  cases ha : a.isValid <;> cases hb : b.isValid <;> cases hc : c.isValid <;>
    simp_all <;> linarith

/-- C8: validate_batch returns none exactly when every candidate validates
    invalid with confidence 0 (given nonnegative candidate confidences);
    otherwise it returns the validation result of some kept candidate
    (is_valid or positive confidence) that is maximal among the kept results
    in the descending (is_valid, confidence) order keyGE. -/
theorem validate_batch_best_of_kept (candidates : List (String × ℚ))
    (region : Option String) (h : ∀ c ∈ candidates, 0 ≤ c.2) :
    (PlateValidator.validateBatch .default candidates region = none ↔
      ∀ c ∈ candidates,
        (PlateValidator.validate .default c.1 c.2 region).isValid = false ∧
        (PlateValidator.validate .default c.1 c.2 region).confidence = 0) ∧
    (∀ r, PlateValidator.validateBatch .default candidates region = some r →
      (∃ c ∈ candidates, r = PlateValidator.validate .default c.1 c.2 region ∧
        (r.isValid = true ∨ 0 < r.confidence)) ∧
      ∀ c ∈ candidates,
        ((PlateValidator.validate .default c.1 c.2 region).isValid = true ∨
          0 < (PlateValidator.validate .default c.1 c.2 region).confidence) →
        PlateValidator.keyGE r (PlateValidator.validate .default c.1 c.2 region) =
          true) := by
  rw [PlateValidator.validateBatch]
  set results := (candidates.map
    (fun c => PlateValidator.validate .default c.1 c.2 region)).filter
    (fun r => r.isValid || decide (0 < r.confidence)) with hres
  constructor
  · constructor
    · intro hnone
      have hempty : results = [] := by
        cases hq : results.isEmpty with
        | true => simpa using hq
        | false =>
          rw [if_neg (by simp [hq])] at hnone
          have hms := List.head?_eq_none_iff.mp hnone
          have hperm := List.mergeSort_perm results PlateValidator.keyGE
          rw [hms] at hperm
          have hlen := hperm.length_eq
          simp only [List.length_nil] at hlen
          exact List.length_eq_zero.mp hlen.symm
      intro c hc
      have hkeep : ¬((PlateValidator.validate .default c.1 c.2 region).isValid = true ∨
          0 < (PlateValidator.validate .default c.1 c.2 region).confidence) := by
        intro hkept
        have hmem : PlateValidator.validate .default c.1 c.2 region ∈ results := by
          rw [hres]
          refine List.mem_filter.mpr ⟨List.mem_map.mpr ⟨c, hc, rfl⟩, ?_⟩
          rcases hkept with hk | hk
          · simp [hk]
          · simp [hk]
        rw [hempty] at hmem
        exact absurd hmem (List.not_mem_nil _)
      push_neg at hkeep
      obtain ⟨hv, hcpos⟩ := hkeep
      refine ⟨by simpa using hv, le_antisymm (by linarith) ?_⟩
      exact validate_confidence_nonneg _ _ _ _ (h c hc)
    · intro hall
      have hempty : results = [] := by
        rw [hres]
        rw [List.filter_eq_nil_iff]
        intro r hr
        obtain ⟨c, hc, rfl⟩ := List.mem_map.mp hr
        obtain ⟨hv, hc0⟩ := hall c hc
        simp [hv, hc0]
      rw [if_pos (by simp [hempty])]
  · intro r hr
    have hne : ¬results.isEmpty = true := by
      intro hempty
      rw [if_pos hempty] at hr
      exact Option.noConfusion hr
    rw [if_neg hne] at hr
    have hperm : (results.mergeSort PlateValidator.keyGE).Perm results :=
      List.mergeSort_perm results PlateValidator.keyGE
    have hsorted : (results.mergeSort PlateValidator.keyGE).Pairwise
        (fun a b => PlateValidator.keyGE a b = true) :=
      @List.sorted_mergeSort _ PlateValidator.keyGE
        (fun a b c => keyGE_trans a b c) (fun a b => keyGE_total a b) results
    obtain ⟨tail, hcons⟩ : ∃ tail,
        results.mergeSort PlateValidator.keyGE = r :: tail := by
      cases hms : results.mergeSort PlateValidator.keyGE with
      | nil => rw [hms] at hr; exact Option.noConfusion hr
      | cons x xs =>
        rw [hms] at hr
        simp only [List.head?_cons, Option.some.injEq] at hr
        exact ⟨xs, by rw [hr]⟩
    have hrmem : r ∈ results := by
      refine hperm.mem_iff.mp ?_
      rw [hcons]
      exact List.mem_cons_self r tail
    have hrspec : ∃ c ∈ candidates,
        r = PlateValidator.validate .default c.1 c.2 region ∧
        (r.isValid = true ∨ 0 < r.confidence) := by
      rw [hres] at hrmem
      obtain ⟨hmap, hkeep⟩ := List.mem_filter.mp hrmem
      obtain ⟨c, hc, hval⟩ := List.mem_map.mp hmap
      refine ⟨c, hc, hval.symm, ?_⟩
      simpa [Bool.or_eq_true, decide_eq_true_eq] using hkeep
    refine ⟨hrspec, ?_⟩
    intro c hc hkept
    have hmem : PlateValidator.validate .default c.1 c.2 region ∈ results := by
      rw [hres]
      refine List.mem_filter.mpr ⟨List.mem_map.mpr ⟨c, hc, rfl⟩, ?_⟩
      rcases hkept with hk | hk
      · simp [hk]
      · simp [hk]
    have hmem2 : PlateValidator.validate .default c.1 c.2 region ∈
        results.mergeSort PlateValidator.keyGE := hperm.symm.mem_iff.mp hmem
    rw [hcons] at hmem2
    rcases List.mem_cons.mp hmem2 with heq | htail
    · rw [heq]
      exact keyGE_refl _
    · rw [hcons] at hsorted
      exact (List.pairwise_cons.mp hsorted).1 _ htail

/-- C8, witness with the single blacklisted candidate BRASIL at confidence
    1: validate_batch returns none and indeed the candidate validates
    invalid with confidence 0. -/
theorem validate_batch_best_of_kept_witness :
    (∀ c ∈ [(("BRASIL" : String), (1 : ℚ))], 0 ≤ c.2) ∧
    ((PlateValidator.validateBatch .default [("BRASIL", 1)] none = none ↔
      ∀ c ∈ [(("BRASIL" : String), (1 : ℚ))],
        (PlateValidator.validate .default c.1 c.2 none).isValid = false ∧
        (PlateValidator.validate .default c.1 c.2 none).confidence = 0) ∧
    (∀ r, PlateValidator.validateBatch .default [("BRASIL", 1)] none = some r →
      (∃ c ∈ [(("BRASIL" : String), (1 : ℚ))],
        r = PlateValidator.validate .default c.1 c.2 none ∧
        (r.isValid = true ∨ 0 < r.confidence)) ∧
      ∀ c ∈ [(("BRASIL" : String), (1 : ℚ))],
        ((PlateValidator.validate .default c.1 c.2 none).isValid = true ∨
          0 < (PlateValidator.validate .default c.1 c.2 none).confidence) →
        PlateValidator.keyGE r (PlateValidator.validate .default c.1 c.2 none) =
          true)) :=
  ⟨fun c hc => by rw [List.mem_singleton] at hc; rw [hc]; exact zero_le_one,
   validate_batch_best_of_kept [("BRASIL", 1)] none
     (fun c hc => by rw [List.mem_singleton] at hc; rw [hc]; exact zero_le_one)⟩


/- ------------------------------------------------------------------ -/
/- C1 (corrected).                                                     -/
/- ------------------------------------------------------------------ -/

theorem matchScore_ABCI234_mercosul :
    PlateFormatRegistry.calculateMatchScore "ABCI234"
      (PlateFormat.ofRule BrazilMercosulRule.rule) = 4/5 := by
  have hc : PlateFormatRegistry.correctPositions "ABCI234"
      (PlateFormat.ofRule BrazilMercosulRule.rule) 7 = 5 := by decide
  have hlen : ("ABCI234" : String).length = 7 := rfl
  have hexp : (PlateFormat.ofRule BrazilMercosulRule.rule).rule.getPlateLength = 7 := rfl
  rw [PlateFormatRegistry.calculateMatchScore, hexp, hlen]
  norm_num [hc]

theorem matchScore_ABCI234_old :
    PlateFormatRegistry.calculateMatchScore "ABCI234"
      (PlateFormat.ofRule BrazilOldRule.rule) = 9/10 := by
  have hc : PlateFormatRegistry.correctPositions "ABCI234"
      (PlateFormat.ofRule BrazilOldRule.rule) 7 = 6 := by decide
  have hlen : ("ABCI234" : String).length = 7 := rfl
  have hexp : (PlateFormat.ofRule BrazilOldRule.rule).rule.getPlateLength = 7 := rfl
  rw [PlateFormatRegistry.calculateMatchScore, hexp, hlen]
  norm_num [hc]

theorem matchWithRegion_ABCI234 :
    PlateFormatRegistry.matchWithRegion "ABCI234" "BR" =
      (some (PlateFormat.ofRule BrazilOldRule.rule), 9/10) := by
  have hn : PlateFormatRegistry.normalize "ABCI234" = "ABCI234" := by decide
  have hfind : PlateFormatRegistry.brFormats.find?
      (fun fmt => fmt.patternAccepts "ABCI234") = none := rfl
  rw [PlateFormatRegistry.matchWithRegion, if_pos rfl, hn,
    PlateFormatRegistry.matchAgainst, hfind]
  simp only [PlateFormatRegistry.brFormats, List.foldl_cons, List.foldl_nil]
  rw [matchScore_ABCI234_mercosul, matchScore_ABCI234_old]
  norm_num

theorem validate_ABCI234 :
    PlateValidator.validate .default "ABCI234" 0.8 (some "BR") =
      { text := "ABC1234", originalText := "ABCI234", confidence := 67/100,
        region := some "BR", formatName := some "BR_OLD",
        correctionsMade := [⟨3, 'I', '1', "expected_digit"⟩], isValid := true } := by
  have hn : PlateValidator.normalize "ABCI234" = "ABCI234" := by decide
  have hac : PlateValidator.applyCorrections "ABCI234"
      (PlateFormat.ofRule BrazilOldRule.rule).rule =
      ("ABC1234", [⟨3, 'I', '1', "expected_digit"⟩]) := by decide
  rw [PlateValidator.validate.eq_def]
  dsimp only
  rw [hn]
  rw [if_neg (by decide), if_neg (by decide), matchWithRegion_ABCI234]
  dsimp only
  rw [if_neg (by norm_num : ¬(9/10 : ℚ) = 1), hac]
  dsimp only
  rw [if_pos (by decide :
    (PlateFormat.ofRule BrazilOldRule.rule).patternAccepts "ABC1234" = true)]
  have hconf : (max 0 ((0.8 : ℚ) * (9 / 10) -
      ↑(List.length [(⟨3, 'I', '1', "expected_digit"⟩ : CorrectionInfo)]) *
        ValidationConfig.default.correctionConfidencePenalty)) = 67 / 100 := by
    rw [show ValidationConfig.default.correctionConfidencePenalty = 0.05 from rfl]
    rw [max_eq_right (by norm_num)]
    norm_num
  rw [hconf]
  rfl

/-- C1, counterexample: validating ABCI234 at OCR confidence 0.8 with region
    BR yields confidence 0.67, not the claimed 0.8 times 1.0 minus 0.05 =
    0.75: the soft match score of the uncorrected text against BR_OLD is
    0.9, not 1.0. -/
theorem old_format_confusable_claim_counterexample :
    (PlateValidator.validate .default "ABCI234" 0.8 (some "BR")).confidence =
      67/100 ∧
    ¬((67 : ℚ)/100 = 0.8 * 1.0 - 0.05) := by
  constructor
  · rw [validate_ABCI234]
  · norm_num

/-- C1, amended: validating the single candidate (ABCI234, 0.8) with region
    BR returns text ABC1234, format BR_OLD, is_valid true and exactly one
    correction at position 3 (I corrected to 1), as claimed, but with
    confidence max(0, 0.8 times 0.9 minus 0.05) = 0.67, the 0.9 being the
    soft match score of the uncorrected text. -/
theorem validate_batch_old_format_confusable :
    PlateValidator.validateBatch .default [("ABCI234", 0.8)] (some "BR") =
      some { text := "ABC1234", originalText := "ABCI234", confidence := 67/100,
             region := some "BR", formatName := some "BR_OLD",
             correctionsMade := [⟨3, 'I', '1', "expected_digit"⟩], isValid := true } := by
  rw [PlateValidator.validateBatch]
  simp only [List.map_cons, List.map_nil]
  rw [show PlateValidator.validate .default ("ABCI234", (0.8 : ℚ)).1
      ("ABCI234", (0.8 : ℚ)).2 (some "BR") =
      { text := "ABC1234", originalText := "ABCI234", confidence := 67/100,
        region := some "BR", formatName := some "BR_OLD",
        correctionsMade := [⟨3, 'I', '1', "expected_digit"⟩], isValid := true }
    from validate_ABCI234]
  rw [show (List.filter (fun r => r.isValid || decide (0 < r.confidence))
      [({ text := "ABC1234", originalText := "ABCI234", confidence := 67/100,
          region := some "BR", formatName := some "BR_OLD",
          correctionsMade := [⟨3, 'I', '1', "expected_digit"⟩],
          isValid := true } : ValidationResult)]) =
      [({ text := "ABC1234", originalText := "ABCI234", confidence := 67/100,
          region := some "BR", formatName := some "BR_OLD",
          correctionsMade := [⟨3, 'I', '1', "expected_digit"⟩],
          isValid := true } : ValidationResult)] from rfl]
  rw [List.mergeSort_singleton]
  rfl


end Plate
